import Mathlib

/-!
Shallow embedding of the ADM log-polling core of the Trace4Me repository
(`src/tracer/log_fetcher.py`, `src/tracer/adm_buffer.py`, `src/tracer/adm_state.py`,
`src/utils/ftp_config.py`, `src/bot.py`), together with theorems settling the
frozen specification claims about it.

Modelling conventions:
- Python `str` is Lean `String`; Python string comparison (code-point
  lexicographic) is modelled by an executable lexicographic comparison on the
  character list (`charListLt`).
- Bytes are modelled as `List Nat`; byte counts and offsets as `Nat`.
- `None`-able values are `Option`.
- Network effects (FTP SIZE, FTP ranged RETR, Nitrado HTTP download) are
  modelled as an environment record consumed by a pure per-cycle function.
-/

namespace Trace4Me

/-! ## String helpers -/

/-- Model of Python `str.lower()` restricted to ASCII (ADM filenames are ASCII). -/
def lowerChars (s : String) : List Char :=
  s.toList.map Char.toLower

/-- Model of `name.lower().endswith(".adm")` (log_fetcher.py, used throughout). -/
def endsWithAdm (s : String) : Bool :=
  List.isSuffixOf ".adm".toList (lowerChars s)

/-- Model of Python `str.rstrip(chars)`: drop trailing characters satisfying `p`. -/
def rstripChars (p : Char → Bool) (s : String) : String :=
  String.mk ((s.toList.reverse.dropWhile p).reverse)

def isLineEnd (c : Char) : Bool :=
  c == '\r' || c == '\n'

/-- Model of `line.rstrip("\r\n")` (adm_buffer.py line 17). -/
def rstripCRLF (s : String) : String :=
  rstripChars isLineEnd s

/-- Model of Python `str.rstrip()` (whitespace strip, log_fetcher.py line 34). -/
def pyRstrip (s : String) : String :=
  rstripChars Char.isWhitespace s

/-- Lexicographic strict comparison of character lists: exactly Python's
`str < str` on the corresponding strings (code-point order). -/
def charListLt : List Char → List Char → Bool
  | [], [] => false
  | [], _ :: _ => true
  | _ :: _, [] => false
  | a :: as, b :: bs =>
    if a < b then true
    else if b < a then false
    else charListLt as bs

/-! ## Datetime model (Python `datetime.datetime`, UTC only) -/

/-- A Python `datetime` value (tz-aware UTC in the source; the zone is constant
so it is omitted). Chronological order is the lexicographic order of the six
fields. -/
structure PyDatetime where
  year : Nat
  month : Nat
  day : Nat
  hour : Nat
  minute : Nat
  second : Nat
deriving Repr, DecidableEq

/-- Order-embedding of a (valid) datetime into `Nat`: every field of a valid
datetime is `< 100`, so this encoding is strictly monotone with respect to
chronological (lexicographic) order. -/
def PyDatetime.code (t : PyDatetime) : Nat :=
  ((((t.year * 100 + t.month) * 100 + t.day) * 100 + t.hour) * 100 + t.minute) * 100 + t.second

def isLeapYear (y : Nat) : Bool :=
  y % 4 == 0 && (y % 100 != 0 || y % 400 == 0)

def daysInMonth (y m : Nat) : Nat :=
  if m = 2 then (if isLeapYear y then 29 else 28)
  else if m = 4 ∨ m = 6 ∨ m = 9 ∨ m = 11 then 30
  else 31

/-- Model of the `datetime(y, M, d, h, m, s)` constructor: `none` when the
constructor would raise `ValueError` (log_fetcher.py lines 77-81 catch this
and return `None`). -/
def mkDatetime (y M d h mi s : Nat) : Option PyDatetime :=
  if 1 ≤ y ∧ y ≤ 9999 ∧ 1 ≤ M ∧ M ≤ 12 ∧ 1 ≤ d ∧ d ≤ daysInMonth y M
      ∧ h ≤ 23 ∧ mi ≤ 59 ∧ s ≤ 59 then
    some ⟨y, M, d, h, mi, s⟩
  else none

/-- `datetime.min` (year 1) with UTC zone, as used in `_choose_latest_adm`. -/
def dtMin : PyDatetime := ⟨1, 1, 1, 0, 0, 0⟩

/-! ## `_parse_name_ts` (log_fetcher.py lines 68-81)

Regex `dayzserver_x1_x64_(\d{4})[-_](\d{2})[-_](\d{2})[-_](\d{2})[-_](\d{2})[-_](\d{2})\.adm$`,
case-insensitive, applied with `re.search`.  Every match of this pattern is a
suffix of fixed length 41, so `search` succeeds iff the last 41 characters
(lowercased) have the shape below. -/

/-- Consume an expected literal character sequence. -/
def expectLit : List Char → List Char → Option (List Char)
  | [], rest => some rest
  | l :: ls, c :: cs => if c == l then expectLit ls cs else none
  | _ :: _, [] => none

def expectDigitsAux : Nat → Nat → List Char → Option (Nat × List Char)
  | 0, acc, cs => some (acc, cs)
  | k + 1, acc, c :: cs =>
    if c.isDigit then expectDigitsAux k (acc * 10 + (c.toNat - 48)) cs else none
  | _ + 1, _, [] => none

/-- Consume exactly `k` decimal digits, returning their value. -/
def expectDigits (k : Nat) (cs : List Char) : Option (Nat × List Char) :=
  expectDigitsAux k 0 cs

/-- Consume one `[-_]` separator. -/
def expectSep : List Char → Option (List Char)
  | c :: cs => if c == '-' || c == '_' then some cs else none
  | [] => none

/-- Match the full 41-character (lowercased) suffix pattern of the ADM-name
regex and build the datetime (validated as the `datetime` constructor does). -/
def parseAdmSuffix (cs : List Char) : Option PyDatetime := do
  let cs ← expectLit "dayzserver_x1_x64_".toList cs
  let (y, cs) ← expectDigits 4 cs
  let cs ← expectSep cs
  let (mo, cs) ← expectDigits 2 cs
  let cs ← expectSep cs
  let (d, cs) ← expectDigits 2 cs
  let cs ← expectSep cs
  let (h, cs) ← expectDigits 2 cs
  let cs ← expectSep cs
  let (mi, cs) ← expectDigits 2 cs
  let cs ← expectSep cs
  let (s, cs) ← expectDigits 2 cs
  let cs ← expectLit ".adm".toList cs
  if cs = [] then mkDatetime y mo d h mi s else none

/-- Model of `_parse_name_ts` (log_fetcher.py lines 73-81).  The pattern has
fixed length 41 and is end-anchored, so only the last 41 characters can match;
for shorter names `drop` keeps the whole list and the match fails for lack of
characters. -/
def parseNameTs (name : String) : Option PyDatetime :=
  let cs := lowerChars name
  parseAdmSuffix (cs.drop (cs.length - 41))

/-! ## Candidates and the active-file chooser
(`_choose_latest_adm`, log_fetcher.py lines 295-303; call site lines 503-524) -/

/-- One row of `_list_adm_files`: `(name, size, mtime)`. -/
structure AdmCand where
  name : String
  size : Nat
  mtime : Option PyDatetime
deriving Repr, DecidableEq

/-- The sort key of `_choose_latest_adm` (lines 298-301):
`t = mtime or _parse_name_ts(name) or datetime.min`, key `(t, name)`. -/
def candKey (c : AdmCand) : Nat × String :=
  (((c.mtime <|> parseNameTs c.name).getD dtMin).code, c.name)

/-- Python tuple comparison `(t, name) < (t2, name2)` for the chooser key. -/
def keyLt (a b : Nat × String) : Bool :=
  if a.1 < b.1 then true
  else if b.1 < a.1 then false
  else charListLt a.2.toList b.2.toList

/-- Python `max(files, key=key)`: scan left to right keeping the current
maximum, replacing it only on a strictly greater key (so the first maximal
element wins). -/
def pyMaxBy (key : AdmCand → Nat × String) : AdmCand → List AdmCand → AdmCand
  | best, [] => best
  | best, c :: rest =>
    if keyLt (key best) (key c) then pyMaxBy key c rest else pyMaxBy key best rest

/-- Model of `_choose_latest_adm` (lines 295-303).  The source raises
`ValueError` on an empty list; modelled as `none`. -/
def chooseLatestAdm (files : List AdmCand) : Option AdmCand :=
  match files with
  | [] => none
  | f :: rest => some (pyMaxBy candKey f rest)

/-- Model of the chooser in `poll_guild` (lines 503-524): the API-provided
hint, when present, is taken unconditionally; otherwise the newest FTP
candidate (`_choose_latest_adm`) is taken, `none` when the scan is empty. -/
def chooseActiveFile (apiName : Option String) (files : List AdmCand) : Option String :=
  match apiName with
  | some n => some n
  | none => (chooseLatestAdm files).map (fun c => c.name)

/-! ## One poll cycle after the chooser (log_fetcher.py lines 557-626)

The environment captures what the remote side would answer this cycle; the
result records, in program order, every `set_guild_state` call made before the
range read (`prePersist`) and after bytes were received (`postPersist`). -/

structure CycleEnv where
  /-- `_ftp_size` result for the active file (line 565). -/
  sizeReport : Option Nat
  /-- Bytes returned by `_ftp_read_range_in_cwd` from a given start offset
  (line 582); `[]` both when the file has nothing past the offset and when
  RETR/REST fails (the exception is caught at line 583 leaving `blob = b""`). -/
  ftpRead : Nat → List Nat
  /-- Whether `chosen_api_url` is set (line 590). -/
  apiUrl : Bool
  /-- `some bytes` when the HTTP download of the API URL returns status 200
  with that content (lines 592-594), `none` otherwise. -/
  httpContent : Option (List Nat)

structure CycleResult where
  newFile : String
  newOffset : Nat
  /-- `set_guild_state (latest_file, offset)` calls issued before the fetch. -/
  prePersist : List (String × Nat)
  /-- `set_guild_state` calls issued after bytes were received. -/
  postPersist : List (String × Nat)
  /-- The start offset handed to the FTP range read (line 582). -/
  fetchStart : Nat
  /-- The byte delta processed this cycle (`blob`). -/
  blob : List Nat
  httpUsed : Bool
deriving Repr, DecidableEq

/-- Rotation step (lines 557-562): when the chosen name differs from the
stored `latest_file`, reset the offset to 0 and persist `(chosen, 0)`. -/
def rotationStep (prevFile : Option String) (prevOffset : Nat) (chosen : String) :
    Nat × List (String × Nat) :=
  if prevFile = some chosen then (prevOffset, []) else (0, [(chosen, 0)])

/-- Truncation guard (lines 564-573): when a size report exists and
`offset > size`, reset the offset to 0 and persist `(chosen, 0)`. -/
def truncationStep (sizeReport : Option Nat) (chosen : String) (offset : Nat) :
    Nat × List (String × Nat) :=
  match sizeReport with
  | some s => if s < offset then (0, [(chosen, 0)]) else (offset, [])
  | none => (offset, [])

/-- HTTP fallback (lines 586-608): only entered when the FTP blob is empty and
an API download URL exists; downloads the whole object and slices the tail at
the current offset client-side.  Returns `(blob, full_fetch_used, http_size)`. -/
def httpFallback (apiUrl : Bool) (httpContent : Option (List Nat)) (offset : Nat)
    (ftpBlob : List Nat) : List Nat × Bool × Option Nat :=
  if ftpBlob = [] ∧ apiUrl = true then
    match httpContent with
    | some bytes =>
      ((if offset < bytes.length then bytes.drop offset else []), true, some bytes.length)
    | none => (ftpBlob, false, none)
  else (ftpBlob, false, none)

/-- Offset advancement (lines 617-621): `offset = http_size` on a full HTTP
fetch, `offset += len(blob)` otherwise. -/
def advanceOffset (httpUsed : Bool) (httpSize : Option Nat) (offset : Nat)
    (blob : List Nat) : Nat :=
  match httpSize with
  | some hs => if httpUsed then hs else offset + blob.length
  | none => offset + blob.length

/-- One poll cycle of `poll_guild` from the point where `chosen_name` is fixed
(line 557) to the offset persistence after a read (line 623), with the mirror
and line dispatch factored out (they consume `blob` and mutate no poll state). -/
def pollCycle (prevFile : Option String) (prevOffset : Nat) (chosen : String)
    (env : CycleEnv) : CycleResult :=
  let r1 := rotationStep prevFile prevOffset chosen
  let r2 := truncationStep env.sizeReport chosen r1.1
  let ftpBlob := env.ftpRead r2.1
  let hb := httpFallback env.apiUrl env.httpContent r2.1 ftpBlob
  let blob := hb.1
  let httpUsed := hb.2.1
  let httpSize := hb.2.2
  if blob = [] then
    { newFile := chosen, newOffset := r2.1, prePersist := r1.2 ++ r2.2,
      postPersist := [], fetchStart := r2.1, blob := blob, httpUsed := httpUsed }
  else
    let newOff := advanceOffset httpUsed httpSize r2.1 blob
    { newFile := chosen, newOffset := newOff, prePersist := r1.2 ++ r2.2,
      postPersist := [(chosen, newOff)], fetchStart := r2.1, blob := blob,
      httpUsed := httpUsed }

/-! ## De-duplication (log_fetcher.py lines 30-36, 401-413, 633-641;
adm_buffer.py) -/

def MAX_SEEN_HASHES : Nat := 4000

/-- The blake2b 8-byte fingerprint of `line.rstrip()` (log_fetcher.py lines
33-35), abstracted as the rstripped content itself (the digest is a function
of exactly these bytes; the abstraction is collision-free). -/
def lineFingerprint (s : String) : String :=
  pyRstrip s

/-- The cross-cycle fingerprint window of `poll_guild`: `seen_set` (membership)
and `seen_queue` (FIFO eviction order). -/
structure SeenState where
  seenSet : List String
  seenQueue : List String
deriving Repr, DecidableEq

/-- Model of `_remember_line` (log_fetcher.py lines 401-413): reject when the
fingerprint is already present, otherwise record it in both layers and evict
the oldest fingerprint when the queue exceeds `MAX_SEEN_HASHES`. -/
def rememberLine (st : SeenState) (line : String) : SeenState × Bool :=
  let fp := lineFingerprint line
  if fp ∈ st.seenSet then (st, false)
  else
    let set1 := fp :: st.seenSet
    let q1 := st.seenQueue ++ [fp]
    if MAX_SEEN_HASHES < q1.length then
      match q1 with
      | [] => (⟨set1, []⟩, true)
      | old :: rest => (⟨set1.erase old, rest⟩, true)
    else (⟨set1, q1⟩, true)

/-- Well-formedness maintained by `poll_guild` for the fingerprint window:
the queue has no duplicates and the set holds exactly the queued fingerprints. -/
def SeenState.WF (st : SeenState) : Prop :=
  st.seenQueue.Nodup ∧ ∀ x, x ∈ st.seenSet ↔ x ∈ st.seenQueue

/-- Model of `AdmBuffer` (adm_buffer.py): a deque of the last `maxRemember`
accepted lines. -/
structure AdmBuffer where
  maxRemember : Nat
  last : List String
deriving Repr, DecidableEq

/-- Model of `AdmBuffer.accept` (adm_buffer.py lines 16-26): trim line ends,
reject empties and recent repeats, otherwise remember (deque `maxlen` drops
the oldest entry on overflow). -/
def AdmBuffer.accept (b : AdmBuffer) (line : String) : AdmBuffer × Bool :=
  let line := rstripCRLF line
  if line = "" then (b, false)
  else if line ∈ b.last then (b, false)
  else
    let last1 := b.last ++ [line]
    ({ b with last := if b.maxRemember < last1.length
                      then last1.drop (last1.length - b.maxRemember) else last1 }, true)

/-- The per-line dispatch decision of `poll_guild` (lines 633-641): a line is
handed to the callback iff `_remember_line` and then `buffer.accept` both
return true.  Returns (fingerprint window, buffer, dispatched?). -/
def processLine (st : SeenState) (b : AdmBuffer) (line : String) :
    SeenState × AdmBuffer × Bool :=
  let r := rememberLine st line
  if r.2 then
    let a := b.accept line
    (r.1, a.1, a.2)
  else (r.1, b, false)

/-! ## Configuration record and its lifetime in `poll_guild`
(utils/ftp_config.py lines 84-85; log_fetcher.py lines 372-383, 417-660) -/

/-- Per-guild FTP configuration record (the dict stored in
`data/ftp_config.json`); only the fields `poll_guild` consults are modelled,
with `Option` for keys read through `.get` with a default. -/
structure FtpCfgRec where
  host : String
  username : String
  password : String
  admDir : Option String
  intervalSec : Option Int
deriving Repr, DecidableEq

/-- `interval = max(5, int(cfg.get("interval_sec", 10)))` (line 377). -/
def cfgInterval (c : FtpCfgRec) : Int :=
  max 5 (c.intervalSec.getD 10)

/-- `directory = cfg.get("adm_dir", "/")` (line 378). -/
def cfgDirectory (c : FtpCfgRec) : String :=
  c.admDir.getD "/"

/-- The (directory, interval) pair each of the first `n` iterations of the
`while` loop uses, given the config captured before the loop: the loop body
never re-reads the store (no `get_ftp_config` call inside lines 417-660). -/
def pollLoopSettings (cfg : FtpCfgRec) (n : Nat) : List (String × Int) :=
  (List.range n).map (fun _ => (cfgDirectory cfg, cfgInterval cfg))

/-- Model of `poll_guild`'s use of the config store: `store i` is the record
`get_ftp_config` would return at the start of iteration `i`; the source calls
it exactly once, before the loop (line 372), and returns early when it is
absent (lines 373-375). -/
def pollGuildSettings (store : Nat → Option FtpCfgRec) (n : Nat) : List (String × Int) :=
  match store 0 with
  | none => []
  | some cfg => pollLoopSettings cfg n

/-! ## The outer poll loop (log_fetcher.py lines 417-660) -/

/-- Model of `while not stop_event.is_set(): try: body except Exception: log;
sleep`.  `stop i` is whether the stop event is set when the loop condition is
evaluated for iteration `i`; `body i s` returns the state after iteration `i`
(partial updates survive a raise) together with whether the body raised — a
flag the source catches at the iteration boundary (lines 654-655) and never
uses for control flow.  Returns (executed iteration indices, final state,
exited-by-stop flag); `fuel` bounds the observation window. -/
def pollLoopRun {σ : Type} (stop : Nat → Bool) (body : Nat → σ → σ × Bool) :
    Nat → Nat → σ → List Nat × σ × Bool
  | 0, _, s => ([], s, false)
  | fuel + 1, i, s =>
    if stop i then ([], s, true)
    else
      let r := body i s
      let rest := pollLoopRun stop body fuel (i + 1) r.1
      (i :: rest.1, rest.2.1, rest.2.2)

/-! ## Poller bookkeeping (bot.py lines 21-50) -/

structure PollTask where
  taskId : Nat
  done : Bool
deriving Repr, DecidableEq

structure StopEvent where
  eventId : Nat
  isSet : Bool
deriving Repr, DecidableEq

/-- The module-level `_poll_stops` / `_poll_tasks` dictionaries of bot.py. -/
structure PollRegistry where
  pollStops : Int → Option StopEvent
  pollTasks : Int → Option PollTask

/-- Model of `start_poll_for_guild` (bot.py lines 29-50): no-op when a
not-done task exists for the guild; no-op when no config exists; otherwise
store a fresh stop event and a fresh task for the guild. -/
def startPollForGuild (reg : PollRegistry) (guildId : Int) (cfgPresent : Bool)
    (freshEvent : StopEvent) (freshTask : PollTask) : PollRegistry :=
  match reg.pollTasks guildId with
  | some t =>
    if t.done = false then reg
    else
      if cfgPresent then
        { pollStops := fun g => if g = guildId then some freshEvent else reg.pollStops g,
          pollTasks := fun g => if g = guildId then some freshTask else reg.pollTasks g }
      else reg
  | none =>
    if cfgPresent then
      { pollStops := fun g => if g = guildId then some freshEvent else reg.pollStops g,
        pollTasks := fun g => if g = guildId then some freshTask else reg.pollTasks g }
    else reg

/-! ## Poll-state store (tracer/adm_state.py) -/

/-- One guild's entry in `data/adm_state.json` (either key may be absent). -/
structure AdmGuildEntry where
  latestFile : Option String
  offset : Option Int
deriving Repr, DecidableEq

/-- The whole store, keyed by guild id.  The JSON file keys by `str(guild_id)`;
`str` is injective on ints, so the integer id itself is used as the key. -/
def AdmStore : Type := Int → AdmGuildEntry

/-- Model of `set_guild_state` (adm_state.py lines 37-47): load, take the
guild's entry (empty when absent), overwrite only the supplied fields, store
the entry back under the guild's key, save. -/
def setGuildState (store : AdmStore) (guildId : Int) (latestFile : Option String)
    (offset : Option Int) : AdmStore :=
  let g0 := store guildId
  let g1 := match latestFile with
    | some f => { g0 with latestFile := some f }
    | none => g0
  let g2 := match offset with
    | some o => { g1 with offset := some o }
    | none => g1
  fun k => if k = guildId then g2 else store k

/-! ## Order lemmas for the chooser key -/

lemma charListLt_irrefl : ∀ l : List Char, charListLt l l = false
  | [] => rfl
  | a :: as => by simp [charListLt, charListLt_irrefl as]

lemma charListLt_trans (a : List Char) : ∀ (b c : List Char),
    charListLt a b = true → charListLt b c = true → charListLt a c = true := by
  induction a with
  | nil =>
    intro b c h1 h2
    cases b with
    | nil => simp [charListLt] at h1
    | cons y ys =>
      cases c with
      | nil => simp [charListLt] at h2
      | cons z zs => rfl
  | cons x xs ih =>
    intro b c h1 h2
    cases b with
    | nil => simp [charListLt] at h1
    | cons y ys =>
      cases c with
      | nil => simp [charListLt] at h2
      | cons z zs =>
        simp only [charListLt] at h1 h2 ⊢
        rcases lt_trichotomy x y with hxy | hxy | hxy
        · rcases lt_trichotomy y z with hyz | hyz | hyz
          · simp [lt_trans hxy hyz]
          · subst hyz; simp [hxy]
          · rw [if_neg (lt_asymm hyz), if_pos hyz] at h2; simp at h2
        · subst hxy
          rw [if_neg (lt_irrefl x), if_neg (lt_irrefl x)] at h1
          rcases lt_trichotomy x z with hxz | hxz | hxz
          · simp [hxz]
          · subst hxz
            rw [if_neg (lt_irrefl x), if_neg (lt_irrefl x)] at h2 ⊢
            exact ih ys zs h1 h2
          · rw [if_neg (lt_asymm hxz), if_pos hxz] at h2; simp at h2
        · rw [if_neg (lt_asymm hxy), if_pos hxy] at h1; simp at h1

lemma charListLt_false_trans (a : List Char) : ∀ (b c : List Char),
    charListLt a b = false → charListLt b c = false → charListLt a c = false := by
  induction a with
  | nil =>
    intro b c h1 h2
    cases b with
    | nil =>
      cases c with
      | nil => rfl
      | cons z zs => simp [charListLt] at h2
    | cons y ys => simp [charListLt] at h1
  | cons x xs ih =>
    intro b c h1 h2
    cases b with
    | nil =>
      cases c with
      | nil => rfl
      | cons z zs => simp [charListLt] at h2
    | cons y ys =>
      cases c with
      | nil => rfl
      | cons z zs =>
        simp only [charListLt] at h1 h2 ⊢
        rcases lt_trichotomy x y with hxy | hxy | hxy
        · rw [if_pos hxy] at h1; simp at h1
        · subst hxy
          rw [if_neg (lt_irrefl x), if_neg (lt_irrefl x)] at h1
          rcases lt_trichotomy x z with hxz | hxz | hxz
          · rw [if_pos hxz] at h2; simp at h2
          · subst hxz
            rw [if_neg (lt_irrefl x), if_neg (lt_irrefl x)] at h2 ⊢
            exact ih ys zs h1 h2
          · rw [if_neg (lt_asymm hxz), if_pos hxz]
        · rcases lt_trichotomy y z with hyz | hyz | hyz
          · rw [if_pos hyz] at h2; simp at h2
          · subst hyz
            rw [if_neg (lt_asymm hxy), if_pos hxy]
          · have hzx : z < x := lt_trans hyz hxy
            rw [if_neg (lt_asymm hzx), if_pos hzx]

lemma keyLt_irrefl (a : Nat × String) : keyLt a a = false := by
  simp [keyLt, charListLt_irrefl]

lemma keyLt_trans (a b c : Nat × String) :
    keyLt a b = true → keyLt b c = true → keyLt a c = true := by
  simp only [keyLt]
  intro h1 h2
  rcases lt_trichotomy a.1 b.1 with hab | hab | hab
  · rcases lt_trichotomy b.1 c.1 with hbc | hbc | hbc
    · simp [lt_trans hab hbc]
    · rw [← hbc]; simp [hab]
    · rw [if_neg (lt_asymm hbc), if_pos hbc] at h2; simp at h2
  · rw [hab] at h1 ⊢
    rw [if_neg (lt_irrefl b.1), if_neg (lt_irrefl b.1)] at h1
    rcases lt_trichotomy b.1 c.1 with hbc | hbc | hbc
    · simp [hbc]
    · rw [hbc] at h2 ⊢
      rw [if_neg (lt_irrefl c.1), if_neg (lt_irrefl c.1)] at h2 ⊢
      exact charListLt_trans _ _ _ h1 h2
    · rw [if_neg (lt_asymm hbc), if_pos hbc] at h2; simp at h2
  · rw [if_neg (lt_asymm hab), if_pos hab] at h1; simp at h1

lemma keyLt_false_trans (a b c : Nat × String) :
    keyLt a b = false → keyLt b c = false → keyLt a c = false := by
  simp only [keyLt]
  intro h1 h2
  rcases lt_trichotomy a.1 b.1 with hab | hab | hab
  · rw [if_pos hab] at h1; simp at h1
  · rw [hab] at h1 ⊢
    rw [if_neg (lt_irrefl b.1), if_neg (lt_irrefl b.1)] at h1
    rcases lt_trichotomy b.1 c.1 with hbc | hbc | hbc
    · rw [if_pos hbc] at h2; simp at h2
    · rw [hbc] at h2 ⊢
      rw [if_neg (lt_irrefl c.1), if_neg (lt_irrefl c.1)] at h2 ⊢
      exact charListLt_false_trans _ _ _ h1 h2
    · rw [if_neg (lt_asymm hbc), if_pos hbc]
  · rcases lt_trichotomy b.1 c.1 with hbc | hbc | hbc
    · rw [if_pos hbc] at h2; simp at h2
    · rw [← hbc, if_neg (lt_asymm hab), if_pos hab]
    · have hca : c.1 < a.1 := lt_trans hbc hab
      rw [if_neg (lt_asymm hca), if_pos hca]

/-! ## Properties of `pyMaxBy` (Python `max(·, key=·)`) -/

lemma pyMaxBy_mem (key : AdmCand → Nat × String) :
    ∀ (l : List AdmCand) (a : AdmCand), pyMaxBy key a l = a ∨ pyMaxBy key a l ∈ l := by
  intro l
  induction l with
  | nil => intro a; left; rfl
  | cons c rest ih =>
    intro a
    simp only [pyMaxBy]
    by_cases h : keyLt (key a) (key c) = true
    · rw [if_pos h]
      rcases ih c with h' | h'
      · right; rw [h']; exact List.mem_cons_self _ _
      · right; exact List.mem_cons_of_mem _ h'
    · rw [if_neg h]
      rcases ih a with h' | h'
      · left; exact h'
      · right; exact List.mem_cons_of_mem _ h'

lemma pyMaxBy_not_lt (key : AdmCand → Nat × String) :
    ∀ (l : List AdmCand) (a : AdmCand),
      keyLt (key (pyMaxBy key a l)) (key a) = false ∧
      ∀ b ∈ l, keyLt (key (pyMaxBy key a l)) (key b) = false := by
  intro l
  induction l with
  | nil =>
    intro a
    refine ⟨keyLt_irrefl _, ?_⟩
    intro b hb
    cases hb
  | cons c rest ih =>
    intro a
    simp only [pyMaxBy]
    by_cases h : keyLt (key a) (key c) = true
    · rw [if_pos h]
      obtain ⟨h1, h2⟩ := ih c
      constructor
      · cases hx : keyLt (key (pyMaxBy key c rest)) (key a)
        · rfl
        · have h3 := keyLt_trans _ _ _ hx h
          rw [h3] at h1
          exact Bool.noConfusion h1
      · intro b hb
        rcases List.mem_cons.mp hb with hbc | hb'
        · rw [hbc]; exact h1
        · exact h2 b hb'
    · rw [if_neg h]
      have hbool : keyLt (key a) (key c) = false := by
        cases hx : keyLt (key a) (key c)
        · rfl
        · exact absurd hx h
      obtain ⟨h1, h2⟩ := ih a
      refine ⟨h1, ?_⟩
      intro b hb
      rcases List.mem_cons.mp hb with hbc | hb'
      · rw [hbc]; exact keyLt_false_trans _ _ _ h1 hbool
      · exact h2 b hb'

/-! ## Claim theorems -/

/-- C4: the chooser in `poll_guild` selects the API discovery hint whenever it
is present, regardless of the candidate set from the directory scan — even
when the scan holds lexicographically or chronologically newer names, and even
when the hinted name is not among the candidates. -/
theorem api_hint_overrides_scan (files : List AdmCand) (n : String) :
    chooseActiveFile (some n) files = some n := rfl

/-- C5: with no external hint and a non-empty candidate list (all names ending
in the `.adm` extension, as the scanner guarantees), `_choose_latest_adm`
returns a candidate of the list that no candidate strictly exceeds in the pair
(timestamp, name) — the timestamp taken from protocol metadata first and from
the filename-embedded timestamp second, defaulted to `datetime.min` — so ties
in the timestamp are broken by lexicographically greatest filename; and when no
candidate has any derivable timestamp, the chosen name is the lexicographic
maximum of the candidate filenames. -/
theorem chooser_latest_by_key (files : List AdmCand) (hne : files ≠ [])
    (hadm : ∀ f ∈ files, endsWithAdm f.name = true) :
    ∃ c, chooseLatestAdm files = some c ∧ c ∈ files ∧
      (∀ f ∈ files, keyLt (candKey c) (candKey f) = false) ∧
      ((∀ f ∈ files, f.mtime = none ∧ parseNameTs f.name = none) →
        ∀ f ∈ files, charListLt c.name.toList f.name.toList = false) := by
  cases files with
  | nil => exact absurd rfl hne
  | cons f rest =>
    have hmem : pyMaxBy candKey f rest ∈ f :: rest := by
      rcases pyMaxBy_mem candKey rest f with h | h
      · rw [h]; exact List.mem_cons_self _ _
      · exact List.mem_cons_of_mem _ h
    have hmax : ∀ g ∈ f :: rest, keyLt (candKey (pyMaxBy candKey f rest)) (candKey g) = false := by
      intro g hg
      obtain ⟨h1, h2⟩ := pyMaxBy_not_lt candKey rest f
      rcases List.mem_cons.mp hg with hgf | hg'
      · rw [hgf]; exact h1
      · exact h2 g hg'
    refine ⟨pyMaxBy candKey f rest, rfl, hmem, hmax, ?_⟩
    intro hts g hg
    have h0 := hmax g hg
    have hkc : candKey (pyMaxBy candKey f rest) =
        (dtMin.code, (pyMaxBy candKey f rest).name) := by
      obtain ⟨hm, hp⟩ := hts _ hmem
      simp [candKey, hm, hp]
    have hkg : candKey g = (dtMin.code, g.name) := by
      obtain ⟨hm, hp⟩ := hts g hg
      simp [candKey, hm, hp]
    rw [hkc, hkg] at h0
    simpa [keyLt] using h0

/-- Witness for C5 at a concrete candidate list with no derivable timestamps:
the chooser picks `b.adm`, the lexicographic maximum. -/
theorem chooser_latest_by_key_witness :
    chooseLatestAdm [⟨"b.adm", 3, none⟩, ⟨"a.adm", 5, none⟩] =
      some ⟨"b.adm", 3, none⟩ ∧
    (∃ c, chooseLatestAdm [⟨"b.adm", 3, none⟩, ⟨"a.adm", 5, none⟩] = some c ∧
      c ∈ [⟨"b.adm", 3, none⟩, ⟨"a.adm", 5, none⟩] ∧
      (∀ f ∈ [(⟨"b.adm", 3, none⟩ : AdmCand), ⟨"a.adm", 5, none⟩],
        keyLt (candKey c) (candKey f) = false) ∧
      ((∀ f ∈ [(⟨"b.adm", 3, none⟩ : AdmCand), ⟨"a.adm", 5, none⟩],
          f.mtime = none ∧ parseNameTs f.name = none) →
        ∀ f ∈ [(⟨"b.adm", 3, none⟩ : AdmCand), ⟨"a.adm", 5, none⟩],
          charListLt c.name.toList f.name.toList = false)) :=
  ⟨by decide,
   chooser_latest_by_key [⟨"b.adm", 3, none⟩, ⟨"a.adm", 5, none⟩]
     (by decide) (by decide)⟩

/-- The cycle's active file is always the chosen name, whatever the fetch did. -/
lemma pollCycle_newFile (prevFile : Option String) (prevOffset : Nat) (chosen : String)
    (env : CycleEnv) : (pollCycle prevFile prevOffset chosen env).newFile = chosen := by
  simp only [pollCycle]
  split <;> rfl

/-- The persistences issued before the fetch are the rotation one followed by
the truncation-guard one, independent of what the fetch later does. -/
lemma pollCycle_prePersist (prevFile : Option String) (prevOffset : Nat) (chosen : String)
    (env : CycleEnv) :
    (pollCycle prevFile prevOffset chosen env).prePersist =
      (rotationStep prevFile prevOffset chosen).2 ++
        (truncationStep env.sizeReport chosen
          (rotationStep prevFile prevOffset chosen).1).2 := by
  simp only [pollCycle]
  split <;> rfl

/-- The range read always starts at the offset left by the rotation and
truncation steps. -/
lemma pollCycle_fetchStart (prevFile : Option String) (prevOffset : Nat) (chosen : String)
    (env : CycleEnv) :
    (pollCycle prevFile prevOffset chosen env).fetchStart =
      (truncationStep env.sizeReport chosen
        (rotationStep prevFile prevOffset chosen).1).1 := by
  simp only [pollCycle]
  split <;> rfl

/-- C2: whenever the chosen active filename differs from the stored
`latest_file`, the cycle's first poll-state persistence — issued before the
range read — is exactly the pair (chosen filename, offset 0), and the active
file of the cycle becomes the chosen one. -/
theorem rotation_resets_offset_before_fetch (prevFile : Option String) (prevOffset : Nat)
    (chosen : String) (env : CycleEnv) (hrot : prevFile ≠ some chosen) :
    ((pollCycle prevFile prevOffset chosen env).prePersist).head? = some (chosen, 0) ∧
    (pollCycle prevFile prevOffset chosen env).newFile = chosen := by
  constructor
  · rw [pollCycle_prePersist]
    simp [rotationStep, hrot]
  · exact pollCycle_newFile prevFile prevOffset chosen env

/-- Witness for C2: a fresh target (`latest_file = None`) choosing `b.adm`
persists (b.adm, 0) before the fetch. -/
theorem rotation_resets_offset_before_fetch_witness :
    ((pollCycle none 7 "b.adm"
        ⟨some 9, fun s => if s = 0 then [1, 2] else [], false, none⟩).prePersist).head? =
      some ("b.adm", 0) ∧
    (pollCycle none 7 "b.adm"
        ⟨some 9, fun s => if s = 0 then [1, 2] else [], false, none⟩).newFile = "b.adm" :=
  rotation_resets_offset_before_fetch none 7 "b.adm" _ (by decide)

/-- C1 (counterexample): at size report 5 and stored offset 10 (size < offset,
no rotation), the same cycle still performs the range read and receives a
byte — `blob = [65]`, the offset advances to 1 and is persisted after the
fetch — contradicting the claim that no fetch is attempted and no lines are
dispatched in a cycle whose size report is below the stored offset. -/
theorem truncation_guard_no_fetch_cex :
    (pollCycle (some "a.adm") 10 "a.adm"
        ⟨some 5, fun _ => [65], false, none⟩).blob = [65] ∧
    (pollCycle (some "a.adm") 10 "a.adm"
        ⟨some 5, fun _ => [65], false, none⟩).newOffset = 1 ∧
    (pollCycle (some "a.adm") 10 "a.adm"
        ⟨some 5, fun _ => [65], false, none⟩).postPersist = [("a.adm", 1)] := by
  decide

/-- C1 (amended): when the size report for the active file is smaller than the
stored offset (and no rotation happened), the cycle resets the offset to 0 and
persists the reset — and then still proceeds to the range read, issuing it
from offset 0 in the same cycle. -/
theorem truncation_resets_then_fetches (prevOffset : Nat) (chosen : String)
    (env : CycleEnv) (s : Nat) (hs : env.sizeReport = some s) (hlt : s < prevOffset) :
    (pollCycle (some chosen) prevOffset chosen env).prePersist = [(chosen, 0)] ∧
    (pollCycle (some chosen) prevOffset chosen env).fetchStart = 0 := by
  constructor
  · rw [pollCycle_prePersist]
    simp [rotationStep, truncationStep, hs, hlt]
  · rw [pollCycle_fetchStart]
    simp [rotationStep, truncationStep, hs, hlt]

/-- Witness for C1 (amended) at size report 5, stored offset 10. -/
theorem truncation_resets_then_fetches_witness :
    (pollCycle (some "a.adm") 10 "a.adm"
        ⟨some 5, fun _ => [65], false, none⟩).prePersist = [("a.adm", 0)] ∧
    (pollCycle (some "a.adm") 10 "a.adm"
        ⟨some 5, fun _ => [65], false, none⟩).fetchStart = 0 :=
  truncation_resets_then_fetches 10 "a.adm" _ 5 rfl (by decide)

/-- C3: in a cycle that receives a non-empty byte delta, the offset advances
by `fetchStart + length blob` when the bytes came from the FTP range read, and
to the total downloaded length when the HTTP full fetch was used — in which
case the delta is exactly the downloaded bytes from the fetch offset onward. -/
theorem offset_advancement (prevFile : Option String) (prevOffset : Nat)
    (chosen : String) (env : CycleEnv) :
    ((pollCycle prevFile prevOffset chosen env).blob ≠ [] →
      (pollCycle prevFile prevOffset chosen env).httpUsed = false →
      (pollCycle prevFile prevOffset chosen env).newOffset =
        (pollCycle prevFile prevOffset chosen env).fetchStart +
          (pollCycle prevFile prevOffset chosen env).blob.length) ∧
    ((pollCycle prevFile prevOffset chosen env).blob ≠ [] →
      (pollCycle prevFile prevOffset chosen env).httpUsed = true →
      ∃ bytes, env.httpContent = some bytes ∧
        (pollCycle prevFile prevOffset chosen env).newOffset = bytes.length ∧
        (pollCycle prevFile prevOffset chosen env).blob =
          bytes.drop (pollCycle prevFile prevOffset chosen env).fetchStart) := by
  simp only [pollCycle]
  generalize (truncationStep env.sizeReport chosen
      (rotationStep prevFile prevOffset chosen).1).1 = off
  by_cases hA : env.ftpRead off = []
  · by_cases hapi : env.apiUrl = true
    · simp only [httpFallback, if_pos (And.intro hA hapi)]
      cases hhc : env.httpContent with
      | none => simp [hA]
      | some bytes =>
        by_cases hlt2 : off < bytes.length
        · simp only [if_pos hlt2]
          by_cases hdrop : List.drop off bytes = []
          · simp [hdrop]
          · simp only [if_neg hdrop]
            refine ⟨?_, ?_⟩
            · intro _ h2
              simp at h2
            · intro _ _
              exact ⟨bytes, rfl, rfl, rfl⟩
        · simp [hlt2]
    · simp [httpFallback, hA, hapi]
  · have hcond : ¬ (env.ftpRead off = [] ∧ env.apiUrl = true) := fun h => hA h.1
    simp only [httpFallback, if_neg hcond]
    simp only [if_neg hA]
    refine ⟨?_, ?_⟩
    · intro _ _
      simp [advanceOffset]
    · intro _ h2
      simp at h2

/-- Witness for C3: an HTTP full fetch of 5 bytes at fetch offset 3 advances
the offset to 5 with the delta being the 2 sliced tail bytes; and an FTP range
read of 2 bytes from offset 0 advances the offset to 0 + 2. -/
theorem offset_advancement_witness :
    (pollCycle (some "a.adm") 3 "a.adm"
        ⟨some 9, fun _ => [], true, some [1, 2, 3, 4, 5]⟩).blob = [4, 5] ∧
    (∃ bytes,
      (⟨some 9, fun _ => [], true, some [1, 2, 3, 4, 5]⟩ : CycleEnv).httpContent = some bytes ∧
      (pollCycle (some "a.adm") 3 "a.adm"
          ⟨some 9, fun _ => [], true, some [1, 2, 3, 4, 5]⟩).newOffset = bytes.length ∧
      (pollCycle (some "a.adm") 3 "a.adm"
          ⟨some 9, fun _ => [], true, some [1, 2, 3, 4, 5]⟩).blob =
        bytes.drop (pollCycle (some "a.adm") 3 "a.adm"
          ⟨some 9, fun _ => [], true, some [1, 2, 3, 4, 5]⟩).fetchStart) ∧
    (pollCycle none 7 "b.adm"
        ⟨some 9, fun s => if s = 0 then [1, 2] else [], false, none⟩).newOffset =
      (pollCycle none 7 "b.adm"
          ⟨some 9, fun s => if s = 0 then [1, 2] else [], false, none⟩).fetchStart +
        (pollCycle none 7 "b.adm"
          ⟨some 9, fun s => if s = 0 then [1, 2] else [], false, none⟩).blob.length :=
  ⟨by decide,
   (offset_advancement (some "a.adm") 3 "a.adm" _).2 (by decide) (by decide),
   (offset_advancement none 7 "b.adm" _).1 (by decide) (by decide)⟩

/-- C9: starting a poll loop for a guild that already has a not-done task is a
no-op — the registry (both the task map and the stop-event map) is returned
unchanged, so no second task is created for the guild. -/
theorem start_poll_idempotent (reg : PollRegistry) (guildId : Int) (cfgPresent : Bool)
    (freshEvent : StopEvent) (freshTask : PollTask) (t : PollTask)
    (ht : reg.pollTasks guildId = some t) (hrun : t.done = false) :
    startPollForGuild reg guildId cfgPresent freshEvent freshTask = reg := by
  unfold startPollForGuild
  rw [ht]
  simp [hrun]

/-- Witness for C9 at a concrete registry whose task for guild 5 is running. -/
theorem start_poll_idempotent_witness :
    startPollForGuild ⟨fun _ => some ⟨0, false⟩, fun _ => some ⟨1, false⟩⟩ 5 true
        ⟨2, false⟩ ⟨3, false⟩ =
      ⟨fun _ => some ⟨0, false⟩, fun _ => some ⟨1, false⟩⟩ :=
  start_poll_idempotent _ 5 true _ _ ⟨1, false⟩ rfl rfl

/-- C10: `set_guild_state` with only an offset preserves the stored
`latest_file`; with only a `latest_file` it preserves the stored offset; and
any update for one guild leaves every other guild's entry unchanged. -/
theorem set_guild_state_frame (store : AdmStore) (guildId : Int) (off : Int) (lf : String)
    (lfArg : Option String) (offArg : Option Int) :
    (setGuildState store guildId none (some off) guildId).latestFile =
      (store guildId).latestFile ∧
    (setGuildState store guildId (some lf) none guildId).offset =
      (store guildId).offset ∧
    ∀ g : Int, g ≠ guildId → setGuildState store guildId lfArg offArg g = store g := by
  refine ⟨?_, ?_, ?_⟩
  · simp [setGuildState]
  · simp [setGuildState]
  · intro g hg
    simp [setGuildState, hg]

/-- Witness for C10 at a concrete store: an offset-only update for guild 1
keeps its filename, and guild 2's entry is untouched. -/
theorem set_guild_state_frame_witness :
    (setGuildState (fun _ => ⟨some "f.adm", some 7⟩) 1 none (some 9) 1).latestFile =
      some "f.adm" ∧
    setGuildState (fun _ => ⟨some "f.adm", some 7⟩) 1 (some "g.adm") (some 9) 2 =
      (fun _ => (⟨some "f.adm", some 7⟩ : AdmGuildEntry)) 2 :=
  ⟨(set_guild_state_frame (fun _ => ⟨some "f.adm", some 7⟩) 1 9 "g.adm"
      (some "g.adm") (some 9)).1,
   (set_guild_state_frame (fun _ => ⟨some "f.adm", some 7⟩) 1 9 "g.adm"
      (some "g.adm") (some 9)).2.2 2 (by decide)⟩

/-- C6 (counterexample): processing the empty line on a fresh de-dup state is
not dispatched, but its fingerprint IS recorded: the fingerprint set goes from
`[]` to `[""]` — contradicting the claim that an empty line is not recorded in
any de-dup layer. -/
theorem empty_line_recorded_cex :
    (processLine ⟨[], []⟩ ⟨200, []⟩ "").2.2 = false ∧
    (processLine ⟨[], []⟩ ⟨200, []⟩ "").1.seenSet = [""] ∧
    (processLine ⟨[], []⟩ ⟨200, []⟩ "").1.seenSet ≠ [] := by
  decide

/-- C6 (amended): a line that is empty after trimming line-ending characters
is never dispatched to the callback and leaves the recent-line buffer
unchanged — but its fingerprint is present in the fingerprint set afterwards
(it is added by `_remember_line`, which has no empty-line check). -/
theorem empty_line_never_dispatched (st : SeenState) (b : AdmBuffer) (line : String)
    (hwf : st.WF) (hempty : rstripCRLF line = "") :
    (processLine st b line).2.2 = false ∧
    (processLine st b line).2.1 = b ∧
    lineFingerprint line ∈ (processLine st b line).1.seenSet := by
  have haccept : b.accept line = (b, false) := by
    unfold AdmBuffer.accept
    simp [hempty]
  unfold processLine rememberLine
  by_cases hmem : lineFingerprint line ∈ st.seenSet
  · simp [hmem]
  · simp only [if_neg hmem]
    by_cases hq : MAX_SEEN_HASHES < (st.seenQueue ++ [lineFingerprint line]).length
    · simp only [if_pos hq]
      cases hqq : st.seenQueue with
      | nil =>
        exfalso
        rw [hqq] at hq
        simp [MAX_SEEN_HASHES] at hq
      | cons q0 qs =>
        have hne : lineFingerprint line ≠ q0 := by
          intro heq
          apply hmem
          rw [heq]
          exact (hwf.2 q0).mpr (by rw [hqq]; exact List.mem_cons_self _ _)
        simp [haccept, List.mem_erase_of_ne hne]
    · simp only [if_neg hq]
      simp [haccept]

/-- Witness for C6 (amended): the line consisting only of a CRLF, fed to a
well-formed non-fresh window, is not dispatched, leaves the buffer unchanged,
and its fingerprint lands in the fingerprint set. -/
theorem empty_line_never_dispatched_witness :
    (processLine ⟨["x"], ["x"]⟩ ⟨200, ["x"]⟩ "\r\n").2.2 = false ∧
    (processLine ⟨["x"], ["x"]⟩ ⟨200, ["x"]⟩ "\r\n").2.1 = (⟨200, ["x"]⟩ : AdmBuffer) ∧
    lineFingerprint "\r\n" ∈ (processLine ⟨["x"], ["x"]⟩ ⟨200, ["x"]⟩ "\r\n").1.seenSet :=
  empty_line_never_dispatched ⟨["x"], ["x"]⟩ ⟨200, ["x"]⟩ "\r\n"
    ⟨by simp, fun x => Iff.rfl⟩ (by decide)

/-- C7 (counterexample): a config store whose record at iteration 0 has
directory "/A" and whose record from iteration 1 onward has directory "/B":
iteration 1 of the loop still uses "/A", although the store then holds a
record with directory "/B" — contradicting the claim that a change to the
stored config takes effect at the next iteration without restarting the loop. -/
theorem config_read_once_cex :
    (pollGuildSettings
        (fun i => if i = 0 then some ⟨"h", "u", "p", some "/A", some 10⟩
          else some ⟨"h", "u", "p", some "/B", some 10⟩) 2).get? 1 =
      some ("/A", 10) ∧
    (fun i => if i = 0 then some (⟨"h", "u", "p", some "/A", some 10⟩ : FtpCfgRec)
        else some ⟨"h", "u", "p", some "/B", some 10⟩) 1 =
      some ⟨"h", "u", "p", some "/B", some 10⟩ ∧
    cfgDirectory ⟨"h", "u", "p", some "/B", some 10⟩ = "/B" ∧
    ("/A" : String) ≠ "/B" := by
  decide

/-- C7 (amended): `poll_guild` reads the configuration record exactly once,
before entering the loop; every iteration uses the directory and interval
derived from that single read, so the loop's behaviour depends only on the
store's content at loop start (config changes take effect only when the
poller is restarted, which bot.py does on config-update events), and within
any single cycle the config is immutable. -/
theorem config_captured_at_loop_start (store store2 : Nat → Option FtpCfgRec) (n : Nat)
    (h0 : store 0 = store2 0) :
    pollGuildSettings store n = pollGuildSettings store2 n ∧
    ∀ i, i < n → (pollGuildSettings store n).get? i =
      (store 0).map (fun c => (cfgDirectory c, cfgInterval c)) := by
  constructor
  · unfold pollGuildSettings
    rw [h0]
  · intro i hi
    unfold pollGuildSettings
    cases hc : store 0 with
    | none => simp
    | some cfg =>
      unfold pollLoopSettings
      simp [List.getElem?_replicate, hi]

/-- Witness for C7 (amended): two stores agreeing at index 0 but differing at
index 1 give the same settings trace, and iteration 1 uses the index-0 record. -/
theorem config_captured_at_loop_start_witness :
    pollGuildSettings
        (fun i => if i = 0 then some ⟨"h", "u", "p", some "/A", some 10⟩
          else some ⟨"h", "u", "p", some "/B", some 10⟩) 2 =
      pollGuildSettings (fun _ => some ⟨"h", "u", "p", some "/A", some 10⟩) 2 ∧
    (pollGuildSettings
        (fun i => if i = 0 then some ⟨"h", "u", "p", some "/A", some 10⟩
          else some ⟨"h", "u", "p", some "/B", some 10⟩) 2).get? 1 =
      ((fun i => if i = 0 then some (⟨"h", "u", "p", some "/A", some 10⟩ : FtpCfgRec)
          else some ⟨"h", "u", "p", some "/B", some 10⟩) 0).map
        (fun c => (cfgDirectory c, cfgInterval c)) :=
  ⟨(config_captured_at_loop_start _ _ 2 (by decide)).1,
   (config_captured_at_loop_start _
      (fun _ => some ⟨"h", "u", "p", some "/A", some 10⟩) 2 (by decide)).2 1 (by decide)⟩

/-- C8: the iteration trace and the exit cause of the poll loop are the same
for every loop body and every starting state — in particular a body that
raises in some (or every) iteration yields the same trace as one that never
raises, because the exception is caught at the iteration boundary — and
whenever the loop exits by itself, the stop signal is set at the first
non-executed iteration: an exception never terminates the loop. -/
theorem loop_survives_exceptions {σ σ2 : Type} (stop : Nat → Bool)
    (body : Nat → σ → σ × Bool) (body2 : Nat → σ2 → σ2 × Bool) (fuel : Nat) :
    ∀ (i : Nat) (s : σ) (s2 : σ2),
      (pollLoopRun stop body fuel i s).1 = (pollLoopRun stop body2 fuel i s2).1 ∧
      (pollLoopRun stop body fuel i s).2.2 = (pollLoopRun stop body2 fuel i s2).2.2 ∧
      ((pollLoopRun stop body fuel i s).2.2 = true →
        stop (i + (pollLoopRun stop body fuel i s).1.length) = true) := by
  induction fuel with
  | zero =>
    intro i s s2
    refine ⟨rfl, rfl, ?_⟩
    intro h
    exact absurd h (by simp [pollLoopRun])
  | succ fuel ih =>
    intro i s s2
    by_cases hstop : stop i = true
    · simp [pollLoopRun, hstop]
    · have hstop' : stop i = false := by
        cases h : stop i
        · rfl
        · exact absurd h hstop
      simp only [pollLoopRun, hstop', Bool.false_eq_true, if_false]
      obtain ⟨ih1, ih2, ih3⟩ := ih (i + 1) (body i s).1 (body2 i s2).1
      refine ⟨by rw [ih1], ih2, ?_⟩
      intro h
      have h3 := ih3 h
      have harith :
          i + ((pollLoopRun stop body fuel (i + 1) (body i s).1).1.length + 1) =
            (i + 1) + (pollLoopRun stop body fuel (i + 1) (body i s).1).1.length := by
        omega
      rw [List.length_cons, harith]
      exact h3

/-- Witness for C8: with the stop signal first set at iteration 2 and a body
that raises every iteration, the loop executes iterations 0 and 1, then exits
by stop — and the stop signal indeed holds at the exit index. -/
theorem loop_survives_exceptions_witness :
    (pollLoopRun (fun i => i == 2) (fun i s => (s + i, true)) 10 0 0).1 = [0, 1] ∧
    (pollLoopRun (fun i => i == 2) (fun i s => (s + i, true)) 10 0 0).2.2 = true ∧
    (fun i => i == 2)
        (0 + (pollLoopRun (fun i => i == 2) (fun i s => (s + i, true)) 10 0 0).1.length) =
      true :=
  ⟨by decide, by decide,
   (loop_survives_exceptions (fun i => i == 2) (fun i s => (s + i, true))
      (fun i s => (s + i, true)) 10 0 0 0).2.2 (by decide)⟩

end Trace4Me
